import Mathlib

/-!
Verification of the litaudioio decode pipeline.

The development shallowly embeds the two source files of the repository:
src/ffmpeg/format/sample_format.rs (the SampleFormat model and its
conversions to and from the external AVSampleFormat identifier) and
src/reader.rs (the Input and Reader types and the decode loop).  The
external ffmpeg library is modelled as a trace of packet events supplied
to the loop; each event carries what the external calls would have
returned at that point.  Machine integers of the source are modelled as
Nat and Int; the claims never exercise overflow.
-/

namespace Litaudioio

/-- Packing tag of a sample format; the source names this enum Type
(sample_format.rs lines 21 to 25). -/
inductive PackingType
  | Packed
  | Planar
deriving DecidableEq, Repr

/-- PCM sample format (sample_format.rs lines 9 to 19). -/
inductive SampleFormat
  | None
  | U8 (t : PackingType)
  | I16 (t : PackingType)
  | I32 (t : PackingType)
  | I64 (t : PackingType)
  | F32 (t : PackingType)
  | F64 (t : PackingType)
deriving DecidableEq, Repr

/-- External ffmpeg sample format identifier (the sys AVSampleFormat enum,
with exactly the constructors the source matches on). -/
inductive AVSampleFormat
  | AV_SAMPLE_FMT_NONE
  | AV_SAMPLE_FMT_U8
  | AV_SAMPLE_FMT_S16
  | AV_SAMPLE_FMT_S32
  | AV_SAMPLE_FMT_S64
  | AV_SAMPLE_FMT_FLT
  | AV_SAMPLE_FMT_DBL
  | AV_SAMPLE_FMT_U8P
  | AV_SAMPLE_FMT_S16P
  | AV_SAMPLE_FMT_S32P
  | AV_SAMPLE_FMT_S64P
  | AV_SAMPLE_FMT_FLTP
  | AV_SAMPLE_FMT_DBLP
  | AV_SAMPLE_FMT_NB
deriving DecidableEq, Repr

open AVSampleFormat

/-- impl From of AVSampleFormat for SampleFormat
(sample_format.rs lines 101 to 124). -/
def SampleFormat.fromAV : AVSampleFormat → SampleFormat
  | AV_SAMPLE_FMT_NONE => SampleFormat.None
  | AV_SAMPLE_FMT_U8 => SampleFormat.U8 PackingType.Packed
  | AV_SAMPLE_FMT_S16 => SampleFormat.I16 PackingType.Packed
  | AV_SAMPLE_FMT_S32 => SampleFormat.I32 PackingType.Packed
  | AV_SAMPLE_FMT_S64 => SampleFormat.I64 PackingType.Packed
  | AV_SAMPLE_FMT_FLT => SampleFormat.F32 PackingType.Packed
  | AV_SAMPLE_FMT_DBL => SampleFormat.F64 PackingType.Packed
  | AV_SAMPLE_FMT_U8P => SampleFormat.U8 PackingType.Planar
  | AV_SAMPLE_FMT_S16P => SampleFormat.I16 PackingType.Planar
  | AV_SAMPLE_FMT_S32P => SampleFormat.I32 PackingType.Planar
  | AV_SAMPLE_FMT_S64P => SampleFormat.I64 PackingType.Planar
  | AV_SAMPLE_FMT_FLTP => SampleFormat.F32 PackingType.Planar
  | AV_SAMPLE_FMT_DBLP => SampleFormat.F64 PackingType.Planar
  | AV_SAMPLE_FMT_NB => SampleFormat.None

/-- impl Into of AVSampleFormat for SampleFormat
(sample_format.rs lines 137 to 158). -/
def SampleFormat.intoAV : SampleFormat → AVSampleFormat
  | SampleFormat.None => AV_SAMPLE_FMT_NONE
  | SampleFormat.U8 PackingType.Packed => AV_SAMPLE_FMT_U8
  | SampleFormat.I16 PackingType.Packed => AV_SAMPLE_FMT_S16
  | SampleFormat.I32 PackingType.Packed => AV_SAMPLE_FMT_S32
  | SampleFormat.I64 PackingType.Packed => AV_SAMPLE_FMT_S64
  | SampleFormat.F32 PackingType.Packed => AV_SAMPLE_FMT_FLT
  | SampleFormat.F64 PackingType.Packed => AV_SAMPLE_FMT_DBL
  | SampleFormat.U8 PackingType.Planar => AV_SAMPLE_FMT_U8P
  | SampleFormat.I16 PackingType.Planar => AV_SAMPLE_FMT_S16P
  | SampleFormat.I32 PackingType.Planar => AV_SAMPLE_FMT_S32P
  | SampleFormat.I64 PackingType.Planar => AV_SAMPLE_FMT_S64P
  | SampleFormat.F32 PackingType.Planar => AV_SAMPLE_FMT_FLTP
  | SampleFormat.F64 PackingType.Planar => AV_SAMPLE_FMT_DBLP

/-- Scalar type of a sample (the litcontainers ScalarType enum, restricted
to the variants the source matches on in from_type). -/
inductive ScalarType
  | U8
  | I16
  | I32
  | I64
  | F32
  | F64
deriving DecidableEq, Repr

/-- Sample packing of an audio container (the litaudio SamplePacking enum). -/
inductive SamplePacking
  | Interleaved
  | Deinterleaved
deriving DecidableEq, Repr

/-- Modelled from the spec: the external ffmpeg helper
av_get_planar_sample_fmt, the planar counterpart of a format identifier.
The spec describes the planar counterpart as a total mapping sending every
format to its planar sibling and the none format to itself. -/
def av_get_planar_sample_fmt : AVSampleFormat → AVSampleFormat
  | AV_SAMPLE_FMT_NONE => AV_SAMPLE_FMT_NONE
  | AV_SAMPLE_FMT_U8 => AV_SAMPLE_FMT_U8P
  | AV_SAMPLE_FMT_S16 => AV_SAMPLE_FMT_S16P
  | AV_SAMPLE_FMT_S32 => AV_SAMPLE_FMT_S32P
  | AV_SAMPLE_FMT_S64 => AV_SAMPLE_FMT_S64P
  | AV_SAMPLE_FMT_FLT => AV_SAMPLE_FMT_FLTP
  | AV_SAMPLE_FMT_DBL => AV_SAMPLE_FMT_DBLP
  | AV_SAMPLE_FMT_U8P => AV_SAMPLE_FMT_U8P
  | AV_SAMPLE_FMT_S16P => AV_SAMPLE_FMT_S16P
  | AV_SAMPLE_FMT_S32P => AV_SAMPLE_FMT_S32P
  | AV_SAMPLE_FMT_S64P => AV_SAMPLE_FMT_S64P
  | AV_SAMPLE_FMT_FLTP => AV_SAMPLE_FMT_FLTP
  | AV_SAMPLE_FMT_DBLP => AV_SAMPLE_FMT_DBLP
  | AV_SAMPLE_FMT_NB => AV_SAMPLE_FMT_NB

/-- SampleFormat::from_type (sample_format.rs lines 73 to 92): the
destination sample format synthesised from the caller scalar type and
packing.  The two type parameters of the source become value parameters. -/
def SampleFormat.from_type (scalar : ScalarType) (packing : SamplePacking) :
    SampleFormat :=
  let ret : AVSampleFormat :=
    match scalar with
    | ScalarType.F32 => AV_SAMPLE_FMT_FLT
    | ScalarType.F64 => AV_SAMPLE_FMT_DBL
    | ScalarType.U8 => AV_SAMPLE_FMT_U8
    | ScalarType.I16 => AV_SAMPLE_FMT_S16
    | ScalarType.I32 => AV_SAMPLE_FMT_S32
    | ScalarType.I64 => AV_SAMPLE_FMT_S64
  let ret : AVSampleFormat :=
    match packing with
    | SamplePacking.Deinterleaved => av_get_planar_sample_fmt ret
    | SamplePacking.Interleaved => ret
  SampleFormat.fromAV ret

/-- Errors of the external ffmpeg boundary: the transient Again and Eof
signals and any other status code (error.rs FFError, as used by reader.rs). -/
inductive FFError
  | Again
  | Eof
  | Code (n : Int)
deriving DecidableEq, Repr

/-- The crate error type, restricted to the variants reader.rs constructs
and matches on: a wrapped ffmpeg error, or any other crate error. -/
inductive Error
  | FFM (f : FFError)
  | Other (n : Nat)
deriving DecidableEq, Repr

/-- A decoded frame as the loop observes it: its sample count, its
per-channel raw payload already in the destination scalar type (what the
direct copy path reads through data_ptr), the payload the converter would
write for it, and whether the converter call on it fails.  The last two
fields model the external converter boundary. -/
structure Frame where
  nb_samples : Nat
  data : List (List Int)
  convOut : List (List Int)
  convErr : Option Error
deriving DecidableEq, Repr

/-- One iteration of the outer loop as seen from the external boundary:
either packet.read returns an error (Again, Eof, or fatal), or it yields a
packet with a stream id, the result of packet.send on it (none is success),
the frames frame.recieve then yields, and the error recieve returns once
they are exhausted (Again means the drain ends normally). -/
inductive PacketEvent
  | readErr (e : Error)
  | pkt (streamId : Int) (send : Option Error) (frames : List Frame) (stop : Error)
deriving DecidableEq, Repr

/-- The owned output buffer (litaudio AudioContainer as reader.rs uses it):
channel count, sample dimension (the allocated capacity during the drain),
sample rate, packing, and flat contents.  Interleaved contents place sample
s of channel c at index s * channels + c, deinterleaved contents at
c * samples + s. -/
structure AudioContainer where
  channels : Nat
  samples : Nat
  sample_rate : Int
  packing : SamplePacking
  data : List Int
deriving DecidableEq, Repr

/-- Overwrite the slice of a flat buffer starting at pos with vals. -/
def writeAt (l : List Int) (pos : Nat) (vals : List Int) : List Int :=
  l.take pos ++ vals ++ l.drop (pos + vals.length)

/-- Modelled from the spec: AudioContainer::set_samples of the external
litcontainers storage.  It sets the sample dimension; growth preserves the
already written samples of every channel (possibly relocating them for the
deinterleaved layout) and exposes zeros beyond them. -/
def AudioContainer.set_samples (c : AudioContainer) (n : Nat) : AudioContainer :=
  let data :=
    match c.packing with
    | SamplePacking.Interleaved =>
        (List.range (n * c.channels)).map (fun i => c.data.getD i 0)
    | SamplePacking.Deinterleaved =>
        (List.range (c.channels * n)).map (fun i =>
          if i % n < c.samples then c.data.getD (i / n * c.samples + i % n) 0 else 0)
  { c with samples := n, data := data }

/-- The write cursor, modelled as an index range over the output buffer
tail (offset in samples, length in samples), following the design note of
the spec for the raw pointer slice of the source. -/
structure Cursor where
  offset : Nat
  len : Nat
deriving DecidableEq, Repr

/-- The Reader state the decode loop threads (reader.rs lines 60 to 68).
The converter field keeps only what the loop observes: whether one was
constructed. -/
structure ReaderState where
  selectedStream : Int
  hasConverter : Bool
  output : AudioContainer
  cursor : Cursor
  sample_count : Nat
deriving DecidableEq, Repr

/-- Write one frame worth of per-channel chunks into the cursor region of
the output buffer: the interleaved branch copies nb * channels elements
from channel 0 contiguously, the deinterleaved branch copies nb elements
per channel into that channel region (reader.rs lines 162 to 183; the
address arithmetic of the external container strides follows the copy
description of the spec). -/
def writeFrameData (st : ReaderState) (chunks : List (List Int)) (nb : Nat) :
    AudioContainer :=
  match st.output.packing with
  | SamplePacking.Interleaved =>
      { st.output with
        data := writeAt st.output.data (st.cursor.offset * st.output.channels)
          ((chunks.getD 0 []).take (nb * st.output.channels)) }
  | SamplePacking.Deinterleaved =>
      { st.output with
        data := (List.range st.output.channels).foldl
          (fun d c => writeAt d (c * st.output.samples + st.cursor.offset)
            ((chunks.getD c []).take nb))
          st.output.data }

/-- Reader::copy_frame_to_cursor (reader.rs lines 159 to 190): without a
converter, a direct copy of the frame payload per packing; with one, the
external converter writes its output into the cursor or fails. -/
def copy_frame_to_cursor (st : ReaderState) (f : Frame) :
    Except Error ReaderState :=
  match st.hasConverter with
  | false => Except.ok { st with output := writeFrameData st f.data f.nb_samples }
  | true =>
      match f.convErr with
      | some e => Except.error e
      | none => Except.ok { st with output := writeFrameData st f.convOut f.nb_samples }

/-- The growth step of the inner drain loop (reader.rs lines 144 to 146). -/
def growFor (st : ReaderState) (f : Frame) : ReaderState :=
  if st.output.samples < st.sample_count + f.nb_samples then
    { st with output := st.output.set_samples (st.sample_count + f.nb_samples) }
  else st

/-- The cursor rebuild of the inner drain loop (reader.rs lines 148 to 149):
shift_col_to repositions the slice at column sample_count with length
samples minus sample_count. -/
def rebuildCursor (st : ReaderState) : ReaderState :=
  { st with cursor := ⟨st.sample_count, st.output.samples - st.sample_count⟩ }

/-- The body of the inner drain loop for one received frame (reader.rs
lines 144 to 153): grow if needed, rebuild the cursor, copy or convert,
then advance sample_count.  On a copy error the mutations made so far
persist and the error is reported. -/
def processFrame (st : ReaderState) (f : Frame) : ReaderState × Option Error :=
  let st1 := rebuildCursor (growFor st f)
  match copy_frame_to_cursor st1 f with
  | Except.error e => (st1, some e)
  | Except.ok st2 =>
      ({ st2 with sample_count := st2.sample_count + f.nb_samples }, none)

/-- The inner drain loop (reader.rs lines 139 to 154): process the frames
recieve yields; once they are exhausted recieve returns stop, where Again
ends the drain normally and anything else is reported. -/
def drainFrames (st : ReaderState) : List Frame → Error → ReaderState × Option Error
  | [], stop =>
      if stop = Error.FFM FFError.Again then (st, none) else (st, some stop)
  | f :: fs, stop =>
      match processFrame st f with
      | (st1, some e) => (st1, some e)
      | (st1, none) => drainFrames st1 fs stop

/-- Reader::read_frame (reader.rs lines 125 to 157): read one packet
(propagating its error), discard it if it belongs to another stream,
submit it tolerating Again, then drain the available frames. -/
def read_frame (st : ReaderState) : PacketEvent → ReaderState × Option Error
  | PacketEvent.readErr e => (st, some e)
  | PacketEvent.pkt sid send frames stop =>
      if sid ≠ st.selectedStream then (st, none)
      else
        match send with
        | some e =>
            if e = Error.FFM FFError.Again then drainFrames st frames stop
            else (st, some e)
        | none => drainFrames st frames stop

/-- The while loop of Reader::read (reader.rs lines 114 to 119): Again
from read_frame continues, Eof ends the loop with the current state, any
other error is returned, success continues.  none means the event trace
ended before the loop did. -/
def readLoop (st : ReaderState) : List PacketEvent → Option (Except Error ReaderState)
  | [] => none
  | ev :: rest =>
      let s := read_frame st ev
      match s.2 with
      | none => readLoop s.1 rest
      | some e =>
          if e = Error.FFM FFError.Again then readLoop s.1 rest
          else if e = Error.FFM FFError.Eof then some (Except.ok s.1)
          else some (Except.error e)

/-- The finalization of Reader::read (reader.rs lines 121 to 122):
set_samples to the accumulated total and hand the buffer out. -/
def finalizeReader (st : ReaderState) : AudioContainer :=
  st.output.set_samples st.sample_count

/-- Reader::read (reader.rs lines 110 to 123): run the loop, then finalize
the output buffer on success. -/
def read (st : ReaderState) (evs : List PacketEvent) :
    Option (Except Error AudioContainer) :=
  (readLoop st evs).map (fun r => r.map finalizeReader)

/-- What Input.open exposes to Reader::open after the external negotiation
(reader.rs lines 41 to 57): source channel count, the negotiated source
sample format, the sample rate, the estimated total sample count, and the
id of the selected audio stream. -/
structure OpenParams where
  srcChannels : Nat
  srcFormat : SampleFormat
  sampleRate : Int
  estimatedSamples : Nat
  selectedStream : Int
deriving DecidableEq, Repr

/-- The channel count resolution of Reader::open (reader.rs lines 79 to
83), a match on the explicit override and the compile-time row count of
the storage type, in the source arm order. -/
def resolveChannelCount (explicit : Option Nat) (fixed : Option Nat)
    (src : Nat) : Nat :=
  match explicit, fixed with
  | none, none => src
  | some c, none => c
  | _, some c => c

/-- Reader::open (reader.rs lines 73 to 108) after Input.open succeeded:
resolve the channel count, allocate the zeroed output sized to the
estimate, decide the converter, and build the initial empty cursor.  The
type parameters T and P of the source become the scalar and packing value
parameters. -/
def Reader.open (p : OpenParams) (channel_count : Option Nat)
    (fixedChannels : Option Nat) (scalar : ScalarType)
    (packing : SamplePacking) : ReaderState :=
  let ch := resolveChannelCount channel_count fixedChannels p.srcChannels
  let output : AudioContainer :=
    { channels := ch
      samples := p.estimatedSamples
      sample_rate := p.sampleRate
      packing := packing
      data := List.replicate (ch * p.estimatedSamples) 0 }
  let use_converter :=
    p.srcFormat ≠ SampleFormat.from_type scalar packing ∨ ch ≠ p.srcChannels
  { selectedStream := p.selectedStream
    hasConverter := decide use_converter
    output := output
    cursor := ⟨0, 0⟩
    sample_count := 0 }

/-- The sample counts summed over a list of frames. -/
def nbSum (fs : List Frame) : Nat :=
  (fs.map Frame.nb_samples).sum

/-- The frames the drain loop actually decodes out of the frames recieve
offers, with the error the drain reports: without a converter every frame
is decoded, with one the drain cuts at the first frame whose conversion
fails.  This is the observable-trace counterpart of drainFrames, free of
buffer state. -/
def drainDecoded (hasConv : Bool) : List Frame → Error → List Frame × Option Error
  | [], stop =>
      if stop = Error.FFM FFError.Again then ([], none) else ([], some stop)
  | f :: fs, stop =>
      if hasConv then
        match f.convErr with
        | some e => ([], some e)
        | none =>
            let r := drainDecoded hasConv fs stop
            (f :: r.1, r.2)
      else
        let r := drainDecoded hasConv fs stop
        (f :: r.1, r.2)

/-- The frames one packet event contributes to the decode and the error
read_frame reports for it: the observable-trace counterpart of
read_frame. -/
def eventDecoded (sid : Int) (hasConv : Bool) : PacketEvent → List Frame × Option Error
  | PacketEvent.readErr e => ([], some e)
  | PacketEvent.pkt sid2 send frames stop =>
      if sid2 ≠ sid then ([], none)
      else
        match send with
        | some e =>
            if e = Error.FFM FFError.Again then drainDecoded hasConv frames stop
            else ([], some e)
        | none => drainDecoded hasConv frames stop

/-- The frames of the selected audio stream that the whole run decodes:
events are consumed while their outcome is success or Again, and the run
ends at Eof or a fatal error or at the end of the trace. -/
def decodedFrames (sid : Int) (hasConv : Bool) : List PacketEvent → List Frame
  | [] => []
  | ev :: rest =>
      let s := eventDecoded sid hasConv ev
      match s.2 with
      | none => s.1 ++ decodedFrames sid hasConv rest
      | some e =>
          if e = Error.FFM FFError.Again then s.1 ++ decodedFrames sid hasConv rest
          else s.1

/-! Basic facts about the container operations. -/

theorem set_samples_samples (c : AudioContainer) (n : Nat) :
    (c.set_samples n).samples = n := rfl

theorem set_samples_channels (c : AudioContainer) (n : Nat) :
    (c.set_samples n).channels = c.channels := rfl

theorem set_samples_packing (c : AudioContainer) (n : Nat) :
    (c.set_samples n).packing = c.packing := rfl

theorem writeFrameData_channels (st : ReaderState) (chunks : List (List Int)) (nb : Nat) :
    (writeFrameData st chunks nb).channels = st.output.channels := by
  cases h : st.output.packing <;> simp [writeFrameData, h]

theorem writeFrameData_samples (st : ReaderState) (chunks : List (List Int)) (nb : Nat) :
    (writeFrameData st chunks nb).samples = st.output.samples := by
  cases h : st.output.packing <;> simp [writeFrameData, h]

theorem writeFrameData_packing (st : ReaderState) (chunks : List (List Int)) (nb : Nat) :
    (writeFrameData st chunks nb).packing = st.output.packing := by
  cases h : st.output.packing <;> simp [writeFrameData, h]

/-! Facts about the copy step. -/

theorem copy_error_iff (st : ReaderState) (f : Frame) (e : Error) :
    copy_frame_to_cursor st f = Except.error e ↔
      (st.hasConverter = true ∧ f.convErr = some e) := by
  cases hc : st.hasConverter <;> cases hce : f.convErr <;>
    simp [copy_frame_to_cursor, hc, hce]

theorem copy_ok_fields (st : ReaderState) (f : Frame) (st2 : ReaderState)
    (h : copy_frame_to_cursor st f = Except.ok st2) :
    st2.selectedStream = st.selectedStream ∧ st2.hasConverter = st.hasConverter ∧
    st2.cursor = st.cursor ∧ st2.sample_count = st.sample_count ∧
    st2.output.channels = st.output.channels ∧
    st2.output.samples = st.output.samples ∧
    st2.output.packing = st.output.packing := by
  cases hc : st.hasConverter <;> cases hce : f.convErr <;>
    simp [copy_frame_to_cursor, hc, hce] at h <;> subst h <;>
    simp [writeFrameData_channels, writeFrameData_samples, writeFrameData_packing]

theorem copy_ok_convErr (st : ReaderState) (f : Frame) (st2 : ReaderState)
    (h : copy_frame_to_cursor st f = Except.ok st2) :
    (if st.hasConverter then f.convErr else none) = none := by
  cases hc : st.hasConverter <;> cases hce : f.convErr <;>
    simp [copy_frame_to_cursor, hc, hce] at h ⊢

/-! Facts about the growth and cursor steps. -/

theorem growFor_basic (st : ReaderState) (f : Frame) :
    (growFor st f).selectedStream = st.selectedStream ∧
    (growFor st f).hasConverter = st.hasConverter ∧
    (growFor st f).sample_count = st.sample_count ∧
    (growFor st f).output.channels = st.output.channels ∧
    (growFor st f).output.packing = st.output.packing := by
  unfold growFor
  by_cases hg : st.output.samples < st.sample_count + f.nb_samples <;>
    simp [hg, set_samples_channels, set_samples_packing]

theorem growFor_samples (st : ReaderState) (f : Frame) :
    (growFor st f).output.samples =
      if st.output.samples < st.sample_count + f.nb_samples
      then st.sample_count + f.nb_samples else st.output.samples := by
  unfold growFor
  by_cases hg : st.output.samples < st.sample_count + f.nb_samples <;>
    simp [hg, set_samples_samples]

theorem rebuildCursor_basic (st : ReaderState) :
    (rebuildCursor st).selectedStream = st.selectedStream ∧
    (rebuildCursor st).hasConverter = st.hasConverter ∧
    (rebuildCursor st).sample_count = st.sample_count ∧
    (rebuildCursor st).output = st.output ∧
    (rebuildCursor st).cursor =
      ⟨st.sample_count, st.output.samples - st.sample_count⟩ := by
  simp [rebuildCursor]

/-! The summary of one frame iteration. -/

theorem processFrame_spec (st : ReaderState) (f : Frame) :
    (processFrame st f).1.selectedStream = st.selectedStream ∧
    (processFrame st f).1.hasConverter = st.hasConverter ∧
    (processFrame st f).1.output.channels = st.output.channels ∧
    (processFrame st f).1.output.packing = st.output.packing ∧
    (processFrame st f).1.output.samples = (growFor st f).output.samples ∧
    (processFrame st f).2 = (if st.hasConverter then f.convErr else none) ∧
    ((processFrame st f).2 = none →
      (processFrame st f).1.sample_count = st.sample_count + f.nb_samples) ∧
    (∀ e, (processFrame st f).2 = some e →
      (processFrame st f).1.sample_count = st.sample_count) ∧
    (processFrame st f).1.cursor.offset = st.sample_count ∧
    (processFrame st f).1.cursor.len =
      (growFor st f).output.samples - st.sample_count := by
  have hg := growFor_basic st f
  have hrb := rebuildCursor_basic (growFor st f)
  cases hcopy : copy_frame_to_cursor (rebuildCursor (growFor st f)) f with
  | error e =>
      have hiff := (copy_error_iff (rebuildCursor (growFor st f)) f e).mp hcopy
      simp only [processFrame, hcopy]
      refine ⟨hrb.1.trans hg.1, hrb.2.1.trans hg.2.1, ?_, ?_, ?_, ?_, ?_, ?_, ?_, ?_⟩
      · rw [hrb.2.2.2.1]; exact hg.2.2.2.1
      · rw [hrb.2.2.2.1]; exact hg.2.2.2.2
      · rw [hrb.2.2.2.1]
      · have hconv : st.hasConverter = true := by
          rw [← hg.2.1, ← hrb.2.1]; exact hiff.1
        simp [hconv, hiff.2]
      · intro h; exact absurd h (by simp)
      · intro e2 _; exact hrb.2.2.1.trans hg.2.2.1
      · rw [hrb.2.2.2.2, hg.2.2.1]
      · rw [hrb.2.2.2.2, hg.2.2.1]
  | ok st2 =>
      have hfields := copy_ok_fields (rebuildCursor (growFor st f)) f st2 hcopy
      have hconv := copy_ok_convErr (rebuildCursor (growFor st f)) f st2 hcopy
      simp only [processFrame, hcopy]
      refine ⟨?_, ?_, ?_, ?_, ?_, ?_, ?_, ?_, ?_, ?_⟩
      · simp only [hfields.1, hrb.1, hg.1]
      · simp only [hfields.2.1, hrb.2.1, hg.2.1]
      · simp only [hfields.2.2.2.2.1, hrb.2.2.2.1, hg.2.2.2.1]
      · simp only [hfields.2.2.2.2.2.2, hrb.2.2.2.1, hg.2.2.2.2]
      · simp only [hfields.2.2.2.2.2.1, hrb.2.2.2.1]
      · rw [← hg.2.1, ← hrb.2.1]; exact hconv.symm
      · intro _
        simp only [hfields.2.2.2.1, hrb.2.2.1, hg.2.2.1]
      · intro e2 h; exact absurd h (by simp)
      · simp only [hfields.2.2.1, hrb.2.2.2.2, hg.2.2.1]
      · simp only [hfields.2.2.1, hrb.2.2.2.2, hg.2.2.1]

theorem processFrame_mono (st : ReaderState) (f : Frame) :
    st.output.samples ≤ (processFrame st f).1.output.samples := by
  have h := (processFrame_spec st f).2.2.2.2.1
  rw [h, growFor_samples]
  by_cases hg : st.output.samples < st.sample_count + f.nb_samples <;> simp [hg]
  exact le_of_lt hg

theorem processFrame_inv (st : ReaderState) (f : Frame)
    (h : st.sample_count ≤ st.output.samples) :
    (processFrame st f).1.sample_count ≤ (processFrame st f).1.output.samples := by
  have hs := (processFrame_spec st f).2.2.2.2.1
  rw [hs, growFor_samples]
  cases hr : (processFrame st f).2 with
  | none =>
      rw [(processFrame_spec st f).2.2.2.2.2.2.1 hr]
      by_cases hg : st.output.samples < st.sample_count + f.nb_samples
      all_goals simp [hg]
      all_goals omega
  | some e =>
      rw [(processFrame_spec st f).2.2.2.2.2.2.2.1 e hr]
      by_cases hg : st.output.samples < st.sample_count + f.nb_samples
      all_goals simp [hg]
      all_goals omega

theorem nbSum_nil : nbSum [] = 0 := rfl

theorem nbSum_cons (f : Frame) (l : List Frame) :
    nbSum (f :: l) = f.nb_samples + nbSum l := by simp [nbSum]

theorem nbSum_append (a b : List Frame) :
    nbSum (a ++ b) = nbSum a + nbSum b := by simp [nbSum]

/-! The summary of the inner drain loop over its trace counterpart. -/

theorem drainFrames_spec : ∀ (fs : List Frame) (stop : Error) (st : ReaderState),
    (drainFrames st fs stop).1.selectedStream = st.selectedStream ∧
    (drainFrames st fs stop).1.hasConverter = st.hasConverter ∧
    (drainFrames st fs stop).1.output.channels = st.output.channels ∧
    (drainFrames st fs stop).2 = (drainDecoded st.hasConverter fs stop).2 ∧
    (drainFrames st fs stop).1.sample_count =
      st.sample_count + nbSum (drainDecoded st.hasConverter fs stop).1 ∧
    st.output.samples ≤ (drainFrames st fs stop).1.output.samples ∧
    (st.sample_count ≤ st.output.samples →
      (drainFrames st fs stop).1.sample_count ≤
        (drainFrames st fs stop).1.output.samples) := by
  intro fs
  induction fs with
  | nil =>
      intro stop st
      by_cases hstop : stop = Error.FFM FFError.Again <;>
        simp [drainFrames, drainDecoded, hstop, nbSum_nil]
  | cons f fs ih =>
      intro stop st
      have hpf := processFrame_spec st f
      have hmono := processFrame_mono st f
      have hinv := processFrame_inv st f
      rcases hpr : processFrame st f with ⟨st1, r⟩
      rw [hpr] at hpf hmono hinv
      simp only at hpf hmono hinv
      cases r with
      | some e =>
          have hconv : st.hasConverter = true ∧ f.convErr = some e := by
            have h6 := hpf.2.2.2.2.2.1
            cases hc : st.hasConverter <;> rw [hc] at h6 <;> simp at h6
            · exact ⟨rfl, h6.symm⟩
          have hsc := hpf.2.2.2.2.2.2.2.1 e rfl
          have hdd : drainDecoded st.hasConverter (f :: fs) stop = ([], some e) := by
            rw [hconv.1]; simp [drainDecoded, hconv.2]
          simp only [drainFrames, hpr, hdd]
          exact ⟨hpf.1, hpf.2.1, hpf.2.2.1, by trivial,
            by simp [nbSum_nil, hsc], hmono,
            fun h => by rw [hsc]; exact le_trans h hmono⟩
      | none =>
          have hsc := hpf.2.2.2.2.2.2.1 rfl
          have hdd : drainDecoded st.hasConverter (f :: fs) stop =
              (f :: (drainDecoded st.hasConverter fs stop).1,
               (drainDecoded st.hasConverter fs stop).2) := by
            have h6 := hpf.2.2.2.2.2.1
            cases hc : st.hasConverter <;> rw [hc] at h6 <;> simp at h6
            · simp [drainDecoded]
            · simp [drainDecoded, ← h6]
          have hih := ih stop st1
          rw [hpf.2.1] at hih
          simp only [drainFrames, hpr, hdd]
          refine ⟨hih.1.trans hpf.1, hih.2.1,
            hih.2.2.1.trans hpf.2.2.1, hih.2.2.2.1, ?_, ?_, ?_⟩
          · rw [hih.2.2.2.2.1, hsc, nbSum_cons]; omega
          · exact le_trans hmono hih.2.2.2.2.2.1
          · intro h
            exact hih.2.2.2.2.2.2 (hinv h)

/-! The summary of one outer loop iteration over its trace counterpart. -/

theorem read_frame_spec (st : ReaderState) (ev : PacketEvent) :
    (read_frame st ev).1.selectedStream = st.selectedStream ∧
    (read_frame st ev).1.hasConverter = st.hasConverter ∧
    (read_frame st ev).1.output.channels = st.output.channels ∧
    (read_frame st ev).2 = (eventDecoded st.selectedStream st.hasConverter ev).2 ∧
    (read_frame st ev).1.sample_count =
      st.sample_count + nbSum (eventDecoded st.selectedStream st.hasConverter ev).1 ∧
    st.output.samples ≤ (read_frame st ev).1.output.samples ∧
    (st.sample_count ≤ st.output.samples →
      (read_frame st ev).1.sample_count ≤ (read_frame st ev).1.output.samples) := by
  cases ev with
  | readErr e => simp [read_frame, eventDecoded, nbSum_nil]
  | pkt sid send fs stop =>
      by_cases hsid : sid ≠ st.selectedStream
      · simp [read_frame, eventDecoded, hsid, nbSum_nil]
      · cases send with
        | none =>
            simp only [read_frame, eventDecoded, if_neg hsid]
            exact drainFrames_spec fs stop st
        | some e =>
            by_cases he : e = Error.FFM FFError.Again
            · simp only [read_frame, eventDecoded, if_neg hsid, if_pos he]
              exact drainFrames_spec fs stop st
            · simp [read_frame, eventDecoded, hsid, he, nbSum_nil]

/-! The whole loop never reports a transient signal. -/

theorem readLoop_no_transient : ∀ (evs : List PacketEvent) (st : ReaderState),
    readLoop st evs ≠ some (Except.error (Error.FFM FFError.Again)) ∧
    readLoop st evs ≠ some (Except.error (Error.FFM FFError.Eof)) := by
  intro evs
  induction evs with
  | nil => intro st; simp [readLoop]
  | cons ev rest ih =>
      intro st
      simp only [readLoop]
      cases hr : (read_frame st ev).2 with
      | none => exact ih _
      | some e =>
          by_cases hA : e = Error.FFM FFError.Again
          · simp only [if_pos hA]; exact ih _
          · by_cases hE : e = Error.FFM FFError.Eof
            · simp [hA, hE]
            · simp [hA, hE]

/-! The whole loop accumulates exactly the decoded sample counts. -/

theorem readLoop_ok_spec : ∀ (evs : List PacketEvent) (st st1 : ReaderState),
    readLoop st evs = some (Except.ok st1) →
    st1.sample_count = st.sample_count +
      nbSum (decodedFrames st.selectedStream st.hasConverter evs) ∧
    st1.output.channels = st.output.channels := by
  intro evs
  induction evs with
  | nil => intro st st1 h; simp [readLoop] at h
  | cons ev rest ih =>
      intro st st1 h
      have hrf := read_frame_spec st ev
      rcases hpr : read_frame st ev with ⟨stA, r⟩
      rw [hpr] at hrf
      simp only at hrf
      simp only [readLoop, hpr] at h
      cases r with
      | none =>
          have hdd : decodedFrames st.selectedStream st.hasConverter (ev :: rest) =
              (eventDecoded st.selectedStream st.hasConverter ev).1 ++
                decodedFrames st.selectedStream st.hasConverter rest := by
            simp [decodedFrames, ← hrf.2.2.2.1]
          have hih := ih stA st1 h
          rw [hrf.1, hrf.2.1] at hih
          refine ⟨?_, hih.2.trans hrf.2.2.1⟩
          rw [hih.1, hdd, nbSum_append, hrf.2.2.2.2.1]
          omega
      | some e =>
          by_cases hA : e = Error.FFM FFError.Again
          · simp only [if_pos hA] at h
            have hdd : decodedFrames st.selectedStream st.hasConverter (ev :: rest) =
                (eventDecoded st.selectedStream st.hasConverter ev).1 ++
                  decodedFrames st.selectedStream st.hasConverter rest := by
              rw [hA] at hrf
              simp [decodedFrames, ← hrf.2.2.2.1]
            have hih := ih stA st1 h
            rw [hrf.1, hrf.2.1] at hih
            refine ⟨?_, hih.2.trans hrf.2.2.1⟩
            rw [hih.1, hdd, nbSum_append, hrf.2.2.2.2.1]
            omega
          · by_cases hE : e = Error.FFM FFError.Eof
            · simp only [if_neg hA, if_pos hE] at h
              have hst : stA = st1 := by
                simpa using h
              have hdd : decodedFrames st.selectedStream st.hasConverter (ev :: rest) =
                  (eventDecoded st.selectedStream st.hasConverter ev).1 := by
                rw [hE] at hrf
                simp [decodedFrames, ← hrf.2.2.2.1]
              subst hst
              exact ⟨by rw [hdd, hrf.2.2.2.2.1], hrf.2.2.1⟩
            · simp [if_neg hA, if_neg hE] at h

/-! Relating read to its loop. -/

theorem read_error_iff (st : ReaderState) (evs : List PacketEvent) (e : Error) :
    read st evs = some (Except.error e) ↔
      readLoop st evs = some (Except.error e) := by
  unfold read
  cases h : readLoop st evs with
  | none => simp
  | some r => cases r with
    | error e2 => simp [Except.map]
    | ok s => simp [Except.map]

theorem read_ok_iff (st : ReaderState) (evs : List PacketEvent) (b : AudioContainer) :
    read st evs = some (Except.ok b) ↔
      ∃ st1, readLoop st evs = some (Except.ok st1) ∧ b = finalizeReader st1 := by
  unfold read
  cases h : readLoop st evs with
  | none => simp
  | some r => cases r with
    | error e2 => simp [Except.map]
    | ok s =>
        constructor
        · intro h2
          refine ⟨s, rfl, ?_⟩
          have hb : (Except.ok (finalizeReader s) : Except Error AudioContainer) =
              Except.ok b := by
            simpa [Except.map] using h2
          exact ((Except.ok.injEq _ _).mp hb).symm
        · rintro ⟨st1, h1, h2⟩
          have hs : s = st1 := (Except.ok.injEq _ _).mp (Option.some_inj.mp h1)
          rw [h2, ← hs]
          simp [Except.map]

/-! Facts about the opened reader state. -/

theorem Reader_open_fields (p : OpenParams) (ech fch : Option Nat)
    (scalar : ScalarType) (pk : SamplePacking) :
    (Reader.open p ech fch scalar pk).sample_count = 0 ∧
    (Reader.open p ech fch scalar pk).selectedStream = p.selectedStream ∧
    (Reader.open p ech fch scalar pk).output.channels =
      resolveChannelCount ech fch p.srcChannels ∧
    (Reader.open p ech fch scalar pk).output.samples = p.estimatedSamples ∧
    (Reader.open p ech fch scalar pk).hasConverter =
      decide (p.srcFormat ≠ SampleFormat.from_type scalar pk ∨
        resolveChannelCount ech fch p.srcChannels ≠ p.srcChannels) := by
  simp [Reader.open]

/-- Trace-level fact used for the fatal receive conjunct of the error
policy: without a converter the drain error is exactly the recieve
terminator unless it is Again. -/
theorem drainDecoded_false_snd : ∀ (fs : List Frame) (stop : Error),
    (drainDecoded false fs stop).2 =
      if stop = Error.FFM FFError.Again then none else some stop := by
  intro fs
  induction fs with
  | nil =>
      intro stop
      by_cases h : stop = Error.FFM FFError.Again <;> simp [drainDecoded, h]
  | cons f fs ih =>
      intro stop
      simpa [drainDecoded] using ih stop

/-- A concrete opened reader over a one channel source, used by the
witnesses: source format F32 packed, requested F32 interleaved, no
override, estimated two samples. -/
def testOpen : ReaderState :=
  Reader.open ⟨1, SampleFormat.F32 PackingType.Packed, 44100, 2, 0⟩
    none none ScalarType.F32 SamplePacking.Interleaved

/-- A concrete three sample frame for one channel, used by the witnesses. -/
def frame3 : Frame := ⟨3, [[1, 2, 3]], [], none⟩

/-- C10: converting any SampleFormat to the external AVSampleFormat
identifier and back yields the same SampleFormat again; the round trip is
the identity, including the None case. -/
theorem claim_C10_sample_format_round_trip (s : SampleFormat) :
    SampleFormat.fromAV (SampleFormat.intoAV s) = s := by
  cases s with
  | None => rfl
  | U8 t => cases t <;> rfl
  | I16 t => cases t <;> rfl
  | I32 t => cases t <;> rfl
  | I64 t => cases t <;> rfl
  | F32 t => cases t <;> rfl
  | F64 t => cases t <;> rfl

/-- C5 counterexample: with an explicit override of 5 channels and a
compile-time storage row count of 2, Reader::open resolves the destination
channel count to 2, not to the explicit 5 the claim requires: the match arm
for the compile-time count fires before the override arm. -/
theorem claim_C5_counterexample :
    (Reader.open ⟨7, SampleFormat.F32 PackingType.Packed, 44100, 0, 0⟩
        (some 5) (some 2) ScalarType.F32 SamplePacking.Interleaved).output.channels = 2 ∧
    ¬ (Reader.open ⟨7, SampleFormat.F32 PackingType.Packed, 44100, 0, 0⟩
        (some 5) (some 2) ScalarType.F32 SamplePacking.Interleaved).output.channels = 5 := by
  constructor
  · rfl
  · decide

/-- C5 amended: in Reader::open the destination channel count is the fixed
compile-time channel count of the storage type if it has one (even when an
explicit override is supplied), else the explicit override if supplied,
else the source stream channel count. -/
theorem claim_C5_amended_channel_resolution (p : OpenParams) (ech : Option Nat)
    (e c : Nat) (scalar : ScalarType) (pk : SamplePacking) :
    (Reader.open p ech (some c) scalar pk).output.channels = c ∧
    (Reader.open p (some e) none scalar pk).output.channels = e ∧
    (Reader.open p none none scalar pk).output.channels = p.srcChannels := by
  refine ⟨?_, ?_, ?_⟩
  · rw [(Reader_open_fields p ech (some c) scalar pk).2.2.1]
    cases ech <;> rfl
  · rw [(Reader_open_fields p (some e) none scalar pk).2.2.1]; rfl
  · rw [(Reader_open_fields p none none scalar pk).2.2.1]; rfl

/-- C6: Reader::open constructs a converter exactly when the negotiated
source format differs from the requested destination format or the
destination channel count differs from the source channel count; when both
agree no converter exists and the copy step is the direct copy of the frame
payload. -/
theorem claim_C6_converter_iff (p : OpenParams) (ech fch : Option Nat)
    (scalar : ScalarType) (pk : SamplePacking) :
    ((Reader.open p ech fch scalar pk).hasConverter = true ↔
      (p.srcFormat ≠ SampleFormat.from_type scalar pk ∨
        resolveChannelCount ech fch p.srcChannels ≠ p.srcChannels)) ∧
    ((p.srcFormat = SampleFormat.from_type scalar pk ∧
        resolveChannelCount ech fch p.srcChannels = p.srcChannels) →
      (Reader.open p ech fch scalar pk).hasConverter = false ∧
      ∀ f, copy_frame_to_cursor (Reader.open p ech fch scalar pk) f =
        Except.ok { Reader.open p ech fch scalar pk with
          output := writeFrameData (Reader.open p ech fch scalar pk)
            f.data f.nb_samples }) := by
  have hc := (Reader_open_fields p ech fch scalar pk).2.2.2.2
  constructor
  · rw [hc]; simp
  · rintro ⟨h1, h2⟩
    have hfalse : (Reader.open p ech fch scalar pk).hasConverter = false := by
      rw [hc]; simp [h1, h2]
    refine ⟨hfalse, fun f => ?_⟩
    simp [copy_frame_to_cursor, hfalse]

/-- C6 witness: a source already in the requested format with matching
channel count yields no converter. -/
theorem claim_C6_witness :
    (Reader.open ⟨2, SampleFormat.F32 PackingType.Packed, 44100, 4, 0⟩
      none none ScalarType.F32 SamplePacking.Interleaved).hasConverter = false :=
  ((claim_C6_converter_iff ⟨2, SampleFormat.F32 PackingType.Packed, 44100, 4, 0⟩
    none none ScalarType.F32 SamplePacking.Interleaved).2 ⟨by decide, by decide⟩).1

/-- C7: in every frame iteration the cursor is rebuilt, after the growth
step and before the copy step, at offset sample_count with length capacity
minus sample_count; the copy step is invoked on exactly that rebuilt
cursor. -/
theorem claim_C7_cursor_rebuilt (st : ReaderState) (f : Frame) :
    (processFrame st f).1.cursor.offset = st.sample_count ∧
    (processFrame st f).1.cursor.len =
      (processFrame st f).1.output.samples - st.sample_count ∧
    (processFrame st f).1.cursor.len =
      (growFor st f).output.samples - st.sample_count ∧
    processFrame st f =
      (match copy_frame_to_cursor (rebuildCursor (growFor st f)) f with
        | Except.error e => (rebuildCursor (growFor st f), some e)
        | Except.ok st2 =>
            ({ st2 with sample_count := st2.sample_count + f.nb_samples }, none)) := by
  have h := processFrame_spec st f
  exact ⟨h.2.2.2.2.2.2.2.2.1,
    by rw [h.2.2.2.2.1]; exact h.2.2.2.2.2.2.2.2.2,
    h.2.2.2.2.2.2.2.2.2, rfl⟩

/-- C8: a packet whose stream id differs from the selected stream is
discarded: read_frame returns success and the whole reader state, in
particular sample_count and the output buffer with its capacity and
contents, is unchanged. -/
theorem claim_C8_foreign_packet_discarded (st : ReaderState) (sid : Int)
    (send : Option Error) (fs : List Frame) (stop : Error)
    (h : sid ≠ st.selectedStream) :
    read_frame st (PacketEvent.pkt sid send fs stop) = (st, none) := by
  simp [read_frame, h]

/-- C8 witness: a packet of stream 1 against a reader selecting stream 0. -/
theorem claim_C8_witness :
    read_frame testOpen
      (PacketEvent.pkt 1 none [frame3] (Error.FFM FFError.Again)) =
      (testOpen, none) :=
  claim_C8_foreign_packet_discarded testOpen 1 none [frame3]
    (Error.FFM FFError.Again) (by decide)

/-- C9: if the very first packet read reports Eof, read returns Ok with a
finalized buffer whose valid sample count is 0, not an error. -/
theorem claim_C9_eof_first_packet (p : OpenParams) (ech fch : Option Nat)
    (scalar : ScalarType) (pk : SamplePacking) (rest : List PacketEvent) :
    read (Reader.open p ech fch scalar pk)
        (PacketEvent.readErr (Error.FFM FFError.Eof) :: rest) =
      some (Except.ok (finalizeReader (Reader.open p ech fch scalar pk))) ∧
    (finalizeReader (Reader.open p ech fch scalar pk)).samples = 0 := by
  constructor
  · simp [read, readLoop, read_frame, Except.map]
  · rw [finalizeReader, set_samples_samples,
      (Reader_open_fields p ech fch scalar pk).1]

/-- C3: read is all or nothing: it diverges on a truncated trace, or
returns an error carrying no buffer, or returns the buffer of the final
loop state finalized so that its valid sample count is exactly the
accumulated total. -/
theorem claim_C3_all_or_nothing (st : ReaderState) (evs : List PacketEvent) :
    read st evs = none ∨
    (∃ e, read st evs = some (Except.error e)) ∨
    (∃ st1, readLoop st evs = some (Except.ok st1) ∧
      read st evs = some (Except.ok (finalizeReader st1)) ∧
      (finalizeReader st1).samples = st1.sample_count) := by
  cases h : readLoop st evs with
  | none => left; simp [read, h]
  | some r =>
      cases r with
      | error e =>
          right; left
          exact ⟨e, by simp [read, h, Except.map]⟩
      | ok s =>
          right; right
          exact ⟨s, rfl, by simp [read, h, Except.map],
            by rw [finalizeReader, set_samples_samples]⟩

/-- C2: when the incoming frame does not fit, the capacity grows to exactly
sample_count plus the frame sample count, otherwise it is unchanged; the
valid count stays at most the capacity and the capacity never decreases,
both across one frame and across one whole packet iteration. -/
theorem claim_C2_growth_invariant (st : ReaderState) (f : Frame)
    (ev : PacketEvent) (hinv : st.sample_count ≤ st.output.samples) :
    (st.output.samples < st.sample_count + f.nb_samples →
      (processFrame st f).1.output.samples = st.sample_count + f.nb_samples) ∧
    (¬ st.output.samples < st.sample_count + f.nb_samples →
      (processFrame st f).1.output.samples = st.output.samples) ∧
    st.output.samples ≤ (processFrame st f).1.output.samples ∧
    (processFrame st f).1.sample_count ≤ (processFrame st f).1.output.samples ∧
    st.output.samples ≤ (read_frame st ev).1.output.samples ∧
    (read_frame st ev).1.sample_count ≤ (read_frame st ev).1.output.samples := by
  have hs := (processFrame_spec st f).2.2.2.2.1
  have hg := growFor_samples st f
  refine ⟨?_, ?_, processFrame_mono st f, processFrame_inv st f hinv,
    (read_frame_spec st ev).2.2.2.2.2.1, (read_frame_spec st ev).2.2.2.2.2.2 hinv⟩
  · intro h; rw [hs, hg, if_pos h]
  · intro h; rw [hs, hg, if_neg h]

/-- C2 witness: a three sample frame against the opened two sample buffer
forces a growth to exactly three samples. -/
theorem claim_C2_witness :
    (testOpen.output.samples < testOpen.sample_count + frame3.nb_samples →
      (processFrame testOpen frame3).1.output.samples =
        testOpen.sample_count + frame3.nb_samples) ∧
    (¬ testOpen.output.samples < testOpen.sample_count + frame3.nb_samples →
      (processFrame testOpen frame3).1.output.samples = testOpen.output.samples) ∧
    testOpen.output.samples ≤ (processFrame testOpen frame3).1.output.samples ∧
    (processFrame testOpen frame3).1.sample_count ≤
      (processFrame testOpen frame3).1.output.samples ∧
    testOpen.output.samples ≤
      (read_frame testOpen (PacketEvent.readErr (Error.FFM FFError.Eof))).1.output.samples ∧
    (read_frame testOpen (PacketEvent.readErr (Error.FFM FFError.Eof))).1.sample_count ≤
      (read_frame testOpen (PacketEvent.readErr (Error.FFM FFError.Eof))).1.output.samples :=
  claim_C2_growth_invariant testOpen frame3
    (PacketEvent.readErr (Error.FFM FFError.Eof)) (by decide)

/-- C1: when read succeeds on an opened reader, the returned buffer has
valid sample count equal to the sum of nb_samples over the decoded frames
of the selected stream, and channel count equal to the negotiated
destination channel count; packets of any other stream decode no frames. -/
theorem claim_C1_read_totals (p : OpenParams) (ech fch : Option Nat)
    (scalar : ScalarType) (pk : SamplePacking) (evs : List PacketEvent)
    (b : AudioContainer)
    (h : read (Reader.open p ech fch scalar pk) evs = some (Except.ok b)) :
    b.samples = nbSum (decodedFrames p.selectedStream
      (Reader.open p ech fch scalar pk).hasConverter evs) ∧
    b.channels = resolveChannelCount ech fch p.srcChannels ∧
    (∀ sid send fs stop, sid ≠ p.selectedStream →
      eventDecoded p.selectedStream
        (Reader.open p ech fch scalar pk).hasConverter
        (PacketEvent.pkt sid send fs stop) = ([], none)) := by
  obtain ⟨st1, hloop, hb⟩ := (read_ok_iff _ evs b).mp h
  have hspec := readLoop_ok_spec evs _ st1 hloop
  have hopen := Reader_open_fields p ech fch scalar pk
  rw [hopen.1, hopen.2.1] at hspec
  refine ⟨?_, ?_, ?_⟩
  · rw [hb, finalizeReader, set_samples_samples, hspec.1, Nat.zero_add]
  · rw [hb, finalizeReader, set_samples_channels, hspec.2, hopen.2.2.1]
  · intro sid send fs stop hsid
    simp [eventDecoded, hsid]

/-- C1 witness: one matching three sample packet then Eof on a one channel
reader yields a buffer of exactly three valid samples and one channel. -/
theorem claim_C1_witness :
    read (Reader.open ⟨1, SampleFormat.F32 PackingType.Packed, 44100, 2, 0⟩
        none none ScalarType.F32 SamplePacking.Interleaved)
        [PacketEvent.pkt 0 none [frame3] (Error.FFM FFError.Again),
         PacketEvent.readErr (Error.FFM FFError.Eof)] =
      some (Except.ok ⟨1, 3, 44100, SamplePacking.Interleaved, [1, 2, 3]⟩) ∧
    (⟨1, 3, 44100, SamplePacking.Interleaved, [1, 2, 3]⟩ : AudioContainer).samples =
      nbSum (decodedFrames 0
        (Reader.open ⟨1, SampleFormat.F32 PackingType.Packed, 44100, 2, 0⟩
          none none ScalarType.F32 SamplePacking.Interleaved).hasConverter
        [PacketEvent.pkt 0 none [frame3] (Error.FFM FFError.Again),
         PacketEvent.readErr (Error.FFM FFError.Eof)]) ∧
    (⟨1, 3, 44100, SamplePacking.Interleaved, [1, 2, 3]⟩ : AudioContainer).channels =
      resolveChannelCount none none 1 :=
  ⟨rfl,
    (claim_C1_read_totals ⟨1, SampleFormat.F32 PackingType.Packed, 44100, 2, 0⟩
      none none ScalarType.F32 SamplePacking.Interleaved
      [PacketEvent.pkt 0 none [frame3] (Error.FFM FFError.Again),
       PacketEvent.readErr (Error.FFM FFError.Eof)]
      ⟨1, 3, 44100, SamplePacking.Interleaved, [1, 2, 3]⟩ rfl).1,
    (claim_C1_read_totals ⟨1, SampleFormat.F32 PackingType.Packed, 44100, 2, 0⟩
      none none ScalarType.F32 SamplePacking.Interleaved
      [PacketEvent.pkt 0 none [frame3] (Error.FFM FFError.Again),
       PacketEvent.readErr (Error.FFM FFError.Eof)]
      ⟨1, 3, 44100, SamplePacking.Interleaved, [1, 2, 3]⟩ rfl).2.1⟩

/-- C4: the transient signals are absorbed by the loop: read never returns
Again or Eof; Again on packet read continues the loop unchanged; Again on
submission is tolerated, behaving as a successful submission; Again on
receive ends the drain of a matching packet without error; Eof on packet
read ends the loop successfully; and a non transient error from packet
read, from submission, or from receive is returned from read at once. -/
theorem claim_C4_transient_policy (st : ReaderState) (rest evs : List PacketEvent)
    (fs : List Frame) (e stop : Error)
    (hconv : st.hasConverter = false)
    (hA : e ≠ Error.FFM FFError.Again) (hE : e ≠ Error.FFM FFError.Eof) :
    read st evs ≠ some (Except.error (Error.FFM FFError.Again)) ∧
    read st evs ≠ some (Except.error (Error.FFM FFError.Eof)) ∧
    read st (PacketEvent.readErr (Error.FFM FFError.Again) :: rest) = read st rest ∧
    read st (PacketEvent.pkt st.selectedStream (some (Error.FFM FFError.Again))
        fs stop :: rest) =
      read st (PacketEvent.pkt st.selectedStream none fs stop :: rest) ∧
    (read_frame st (PacketEvent.pkt st.selectedStream none fs
        (Error.FFM FFError.Again))).2 = none ∧
    read st (PacketEvent.readErr (Error.FFM FFError.Eof) :: rest) =
      some (Except.ok (finalizeReader st)) ∧
    read st (PacketEvent.readErr e :: rest) = some (Except.error e) ∧
    read st (PacketEvent.pkt st.selectedStream (some e) fs stop :: rest) =
      some (Except.error e) ∧
    read st (PacketEvent.pkt st.selectedStream none fs e :: rest) =
      some (Except.error e) := by
  refine ⟨?_, ?_, ?_, ?_, ?_, ?_, ?_, ?_, ?_⟩
  · intro hcon
    exact (readLoop_no_transient evs st).1 ((read_error_iff st evs _).mp hcon)
  · intro hcon
    exact (readLoop_no_transient evs st).2 ((read_error_iff st evs _).mp hcon)
  · simp [read, readLoop, read_frame]
  · have hrf : read_frame st (PacketEvent.pkt st.selectedStream
        (some (Error.FFM FFError.Again)) fs stop) =
        read_frame st (PacketEvent.pkt st.selectedStream none fs stop) := by
      simp [read_frame]
    simp only [read, readLoop, hrf]
  · rw [(read_frame_spec st _).2.2.2.1]
    simp [eventDecoded, hconv, drainDecoded_false_snd]
  · simp [read, readLoop, read_frame, Except.map]
  · simp [read, readLoop, read_frame, hA, hE, Except.map]
  · simp [read, readLoop, read_frame, hA, hE, Except.map]
  · rcases hpr : read_frame st (PacketEvent.pkt st.selectedStream none fs e)
      with ⟨stA, r⟩
    have hr : r = some e := by
      have h2 := (read_frame_spec st
        (PacketEvent.pkt st.selectedStream none fs e)).2.2.2.1
      rw [hpr] at h2
      simp only at h2
      rw [h2]
      simp [eventDecoded, hconv, drainDecoded_false_snd, hA]
    subst hr
    simp [read, readLoop, hpr, hA, hE, Except.map]

/-- A concrete fatal error, used by the witnesses. -/
def fatal1 : Error := Error.FFM (FFError.Code 1)

/-- The Eof packet read event, used by the witnesses. -/
def evEof : PacketEvent := PacketEvent.readErr (Error.FFM FFError.Eof)

/-- C4 witness: the policy instantiated on the concrete opened reader with
a concrete fatal error. -/
theorem claim_C4_witness :
    read testOpen [evEof] ≠ some (Except.error (Error.FFM FFError.Again)) ∧
    read testOpen [evEof] ≠ some (Except.error (Error.FFM FFError.Eof)) ∧
    read testOpen [PacketEvent.readErr (Error.FFM FFError.Again)] =
      read testOpen [] ∧
    read testOpen [PacketEvent.pkt testOpen.selectedStream
        (some (Error.FFM FFError.Again)) [frame3] (Error.FFM FFError.Again)] =
      read testOpen [PacketEvent.pkt testOpen.selectedStream none [frame3]
        (Error.FFM FFError.Again)] ∧
    (read_frame testOpen (PacketEvent.pkt testOpen.selectedStream none [frame3]
        (Error.FFM FFError.Again))).2 = none ∧
    read testOpen [PacketEvent.readErr (Error.FFM FFError.Eof)] =
      some (Except.ok (finalizeReader testOpen)) ∧
    read testOpen [PacketEvent.readErr fatal1] = some (Except.error fatal1) ∧
    read testOpen [PacketEvent.pkt testOpen.selectedStream (some fatal1) [frame3]
        (Error.FFM FFError.Again)] = some (Except.error fatal1) ∧
    read testOpen [PacketEvent.pkt testOpen.selectedStream none [frame3] fatal1] =
      some (Except.error fatal1) := by
  have h := claim_C4_transient_policy testOpen [] [evEof] [frame3] fatal1
    (Error.FFM FFError.Again) (by decide) (by decide) (by decide)
  exact h

end Litaudioio
